import Mathlib

/-!
# The handler registry of `internal/server/data`

A verification development for `state.go`: the registry `safeHandlerMap`
(a Go `map[string]*model.Handler` guarded by a `*sync.RWMutex`) and its four
methods `Add`, `Remove`, `Get`, `ListIDs`, followed by the resource router
and the resource accessors that the package tests exercise.

Conventions of the embedding.

* A Go pointer `*model.Handler` is `Option Handler`: `none` is the nil
  pointer, `some h` points at `h`.  The registry never writes through a
  handler pointer, so the pointee is carried by value.
* The Go map is an association list with pairwise distinct keys
  (`AList`); its values are handler pointers, as in the Go type.
* The mutex is explicit state.  An operation that would wait for ever on a
  held lock, or that dies on a run-time panic, yields a `Fault`; an operation
  that returns yields `Except.ok` with its results and the next state.
* Go leaves the order in which `range` walks a map unspecified, so `ListIDs`
  receives that order as an argument: any rearrangement of the stored
  entries.
-/

namespace Kapow

/-! ## Data model -/

/-- Modelled from the spec: the declaration of `model.Handler` lives in a
package that is not among the sources.  The spec gives a handler an `id`
(the registry key), the live inbound request and the live outbound response;
the two live objects are kept as references (their addresses), which is all
the registry ever stores of them. -/
structure Handler where
  /-- Field `ID`, read by `Add` as `h.ID`. -/
  ID : String
  /-- Reference to the live inbound request. -/
  request : Nat
  /-- Reference to the live outbound response writer. -/
  response : Nat
deriving DecidableEq, Repr

/-- A value of Go type `*model.Handler`: `none` is `nil`. -/
abbrev HandlerPtr := Option Handler

/-- Ways in which a call fails to return normally. -/
inductive Fault where
  /-- Run-time panic: a field was read through a nil pointer. -/
  | nilDereference
  /-- The caller waits on a lock that nobody is going to release. -/
  | blocked
  /-- Fatal error of `sync`: unlock of a mutex that is not locked. -/
  | unlockOfUnlocked
deriving DecidableEq, Repr

/-- State of a `sync.RWMutex`: whether a writer holds it, and how many
readers hold it. -/
structure RWMutex where
  writer : Bool
  readers : Nat
deriving DecidableEq, Repr

namespace RWMutex

/-- The zero value `sync.RWMutex{}`: held by nobody. -/
def free : RWMutex := { writer := false, readers := 0 }

/-- `Lock`: exclusive access, granted only when nobody holds the mutex. -/
def Lock (m : RWMutex) : Except Fault RWMutex :=
  if m.writer = false ∧ m.readers = 0 then .ok { m with writer := true }
  else .error .blocked

/-- `Unlock`: releases exclusive access. -/
def Unlock (m : RWMutex) : Except Fault RWMutex :=
  if m.writer = true then .ok { m with writer := false }
  else .error .unlockOfUnlocked

/-- `RLock`: shared access, granted when no writer holds the mutex. -/
def RLock (m : RWMutex) : Except Fault RWMutex :=
  if m.writer = false then .ok { m with readers := m.readers + 1 }
  else .error .blocked

/-- `RUnlock`: releases one shared hold. -/
def RUnlock (m : RWMutex) : Except Fault RWMutex :=
  if 0 < m.readers then .ok { m with readers := m.readers - 1 }
  else .error .unlockOfUnlocked

end RWMutex

/-- The Go type `map[string]*model.Handler`. -/
abbrev HandlerMap := AList (fun _ : String => HandlerPtr)

/-- The struct `safeHandlerMap`: the map `hs` and the state of the mutex
that `m` points to. -/
structure safeHandlerMap where
  hs : HandlerMap
  m : RWMutex
deriving DecidableEq

/-! ## Operations of `state.go` -/

/-- `New()`: an empty map and a fresh mutex. -/
def New : safeHandlerMap := { hs := ∅, m := RWMutex.free }

/-- The package variable `Handlers = New()`. -/
def Handlers : safeHandlerMap := New

namespace safeHandlerMap

/-- `Add(h)`: `Lock`, then `shm.hs[h.ID] = h`, then `Unlock`.  Reading
`h.ID` through a nil `h` panics, with the lock still held. -/
def Add (shm : safeHandlerMap) (h : HandlerPtr) : Except Fault safeHandlerMap := do
  let m ← shm.m.Lock
  match h with
  | none => .error .nilDereference
  | some v =>
    let hs := shm.hs.insert v.ID h
    let m ← m.Unlock
    pure { hs := hs, m := m }

/-- `Remove(id)`: `Lock`, then `delete(shm.hs, id)`, then `Unlock`. -/
def Remove (shm : safeHandlerMap) (id : String) : Except Fault safeHandlerMap := do
  let m ← shm.m.Lock
  let hs := shm.hs.erase id
  let m ← m.Unlock
  pure { hs := hs, m := m }

/-- The two-result map read `h, ok := hs[id]`: the stored pointer and `true`
for a present key, the zero value `nil` and `false` for an absent one. -/
def index (hs : HandlerMap) (id : String) : HandlerPtr × Bool :=
  match hs.lookup id with
  | some p => (p, true)
  | none => (none, false)

/-- `Get(id)`: `RLock`, then `h, ok := shm.hs[id]`, then `RUnlock`; returns
`(h, ok)` together with the state it leaves. -/
def Get (shm : safeHandlerMap) (id : String) :
    Except Fault ((HandlerPtr × Bool) × safeHandlerMap) := do
  let m ← shm.m.RLock
  let r := index shm.hs id
  let m ← m.RUnlock
  pure (r, { shm with m := m })

/-- The loop `for id := range shm.hs { ids = append(ids, id) }` run over the
entries in the order `order`, starting from the nil slice. -/
def rangeAppend (order : List (Sigma fun _ : String => HandlerPtr)) : List String :=
  order.foldl (fun ids e => ids ++ [e.1]) []

/-- `ListIDs()`: `RLock`, the `range` loop, and the deferred `RUnlock` on
return.  `order` is the order in which `range` yields the entries. -/
def ListIDs (shm : safeHandlerMap) (order : List (Sigma fun _ : String => HandlerPtr)) :
    Except Fault (List String × safeHandlerMap) := do
  let m ← shm.m.RLock
  let ids := rangeAppend order
  let m ← m.RUnlock
  pure (ids, { shm with m := m })

/-- An order in which `range` may walk the map of `shm`: a rearrangement of
its entries. -/
def RangeOrder (shm : safeHandlerMap) (order : List (Sigma fun _ : String => HandlerPtr)) : Prop :=
  order.Perm shm.hs.entries

end safeHandlerMap

/-! ## The methods step by step

The same four methods, written as the sequence of primitive steps of their
bodies, so that the state in which each step runs can be inspected. -/

/-- A primitive step of a method body: a call on the mutex or an access to
the map. -/
inductive Action where
  /-- `shm.m.Lock()` -/
  | lock
  /-- `shm.m.Unlock()` -/
  | unlock
  /-- `shm.m.RLock()` -/
  | rlock
  /-- `shm.m.RUnlock()` -/
  | runlock
  /-- `shm.hs[h.ID] = h` -/
  | store (h : HandlerPtr)
  /-- `delete(shm.hs, id)` -/
  | delete (id : String)
  /-- `h, ok := shm.hs[id]` -/
  | load (id : String)
  /-- The loop `for id := range shm.hs`, walking the map in the given order. -/
  | range (order : List (Sigma fun _ : String => HandlerPtr))
deriving DecidableEq

namespace Action

/-- The step writes the map. -/
def writesMap : Action → Bool
  | .store _ => true
  | .delete _ => true
  | _ => false

/-- The step reads the map. -/
def readsMap : Action → Bool
  | .load _ => true
  | .range _ => true
  | _ => false

/-- The step is a call on the mutex. -/
def onMutex : Action → Bool
  | .lock => true
  | .unlock => true
  | .rlock => true
  | .runlock => true
  | _ => false

/-- Runs one step.  `store` through a nil pointer panics before the map is
touched; reads leave the state as it is. -/
def perform (a : Action) (shm : safeHandlerMap) : Except Fault safeHandlerMap :=
  match a with
  | .lock => do
    let m ← shm.m.Lock
    pure { shm with m := m }
  | .unlock => do
    let m ← shm.m.Unlock
    pure { shm with m := m }
  | .rlock => do
    let m ← shm.m.RLock
    pure { shm with m := m }
  | .runlock => do
    let m ← shm.m.RUnlock
    pure { shm with m := m }
  | .store none => .error .nilDereference
  | .store (some v) => .ok { shm with hs := shm.hs.insert v.ID (some v) }
  | .delete id => .ok { shm with hs := shm.hs.erase id }
  | .load _ => .ok shm
  | .range _ => .ok shm

end Action

/-- A call of one of the four methods with its arguments (for `ListIDs`,
the order `range` takes). -/
inductive Call where
  | add (h : HandlerPtr)
  | remove (id : String)
  | get (id : String)
  | listIDs (order : List (Sigma fun _ : String => HandlerPtr))
deriving DecidableEq

namespace Call

/-- The body of the method, statement by statement; the deferred `RUnlock`
of `ListIDs` runs last. -/
def body : Call → List Action
  | .add h => [.lock, .store h, .unlock]
  | .remove id => [.lock, .delete id, .unlock]
  | .get id => [.rlock, .load id, .runlock]
  | .listIDs order => [.rlock, .range order, .runlock]

/-- `Add` and `Remove` are the writers. -/
def isWriter : Call → Bool
  | .add _ => true
  | .remove _ => true
  | _ => false

/-- The state the call leaves, by the method itself. -/
def run (c : Call) (shm : safeHandlerMap) : Except Fault safeHandlerMap :=
  match c with
  | .add h => shm.Add h
  | .remove id => shm.Remove id
  | .get id => (shm.Get id).map Prod.snd
  | .listIDs order => (shm.ListIDs order).map Prod.snd

end Call

/-- Runs the steps in order until one fails.  Returns the steps that ran,
each with the state it ran in, and the final state or the fault. -/
def trace : List Action → safeHandlerMap →
    List (Action × safeHandlerMap) × Except Fault safeHandlerMap
  | [], shm => ([], .ok shm)
  | a :: rest, shm =>
    match a.perform shm with
    | .error e => ([], .error e)
    | .ok shm' => ((a, shm) :: (trace rest shm').1, (trace rest shm').2)

/-! ## Sequences of registrations and removals -/

/-- A state-changing call on the registry that returns: `Add` of a non-nil
handler, or `Remove`. -/
inductive Op where
  | add (h : Handler)
  | remove (id : String)
deriving DecidableEq, Repr

/-- Performs one call. -/
def step (shm : safeHandlerMap) : Op → Except Fault safeHandlerMap
  | .add h => shm.Add (some h)
  | .remove id => shm.Remove id

/-- Performs the calls of `ops` from left to right, starting in `shm`. -/
def run : List Op → safeHandlerMap → Except Fault safeHandlerMap
  | [], shm => .ok shm
  | op :: ops, shm => do
    let shm ← step shm op
    run ops shm

/-- Whether a call names the key `id`. -/
def Op.concerns (id : String) : Op → Bool
  | .add h => h.ID == id
  | .remove i => i == id

/-- The last call of `ops` that names `id`, if there is one. -/
def lastConcerning (ops : List Op) (id : String) : Option Op :=
  ops.reverse.find? (Op.concerns id)

/-- What the specification says `Get(id)` returns after the calls `ops` on
a new registry: the handler of the last call naming `id` when that call is
an `Add`, and "not found" otherwise. -/
def specGet (ops : List Op) (id : String) : HandlerPtr × Bool :=
  match lastConcerning ops id with
  | some (.add h) => (some h, true)
  | _ => (none, false)

/-- The registry as the specification sees it, a finite map from id to
handler on which `Add` inserts and `Remove` erases; `Get` is the lookup. -/
def specMap (ops : List Op) : String → Option Handler :=
  ops.foldl
    (fun m op id =>
      match op with
      | .add h => if id = h.ID then some h else m id
      | .remove i => if id = i then none else m id)
    (fun _ => none)

/-! ## The resource router

`configRouter`, `readRequestResources` and `writeResponseResources` are
defined in a file of the package that is not among the sources; the test
`TestRouterIsWellConfigured` calls them.  The router below follows the
route grammar and the resource-path catalogue of the specification. -/

/-- Modelled from the spec: the two entry points a data-API route resolves
to (their bodies are in the missing file). -/
inductive EntryPoint where
  | readRequestResources
  | writeResponseResources
deriving DecidableEq, Repr

/-- Modelled from the spec: one segment of a resource-path shape of the
catalogue, either a fixed word or the captured variable `name`. -/
inductive Seg where
  | lit (word : String)
  | name
deriving DecidableEq, Repr

/-- Modelled from the spec: one registered route, a verb, the side
(`request` or `response`) that follows `/handlers/<handler_id>/`, the shape
of the resource path and the entry point. -/
structure Route where
  verb : String
  side : String
  shape : List Seg
  entry : EntryPoint
deriving DecidableEq, Repr

/-- Modelled from the spec: the outcome of a successful match, the entry
point and the route variables. -/
structure RouteMatch where
  handler : EntryPoint
  vars : List (String × String)
deriving DecidableEq, Repr

/-- Modelled from the spec: a router is its routes in registration order. -/
structure Router where
  routes : List Route
deriving DecidableEq, Repr

/-- Modelled from the spec: the resource-path catalogue, sixteen routes,
eleven reads under GET and five writes under PUT. -/
def catalogue : List Route :=
  [ ⟨"GET", "request", [.lit "method"], .readRequestResources⟩,
    ⟨"GET", "request", [.lit "host"], .readRequestResources⟩,
    ⟨"GET", "request", [.lit "path"], .readRequestResources⟩,
    ⟨"GET", "request", [.lit "matches", .name], .readRequestResources⟩,
    ⟨"GET", "request", [.lit "params", .name], .readRequestResources⟩,
    ⟨"GET", "request", [.lit "headers", .name], .readRequestResources⟩,
    ⟨"GET", "request", [.lit "cookies", .name], .readRequestResources⟩,
    ⟨"GET", "request", [.lit "form", .name], .readRequestResources⟩,
    ⟨"GET", "request", [.lit "files", .name, .lit "filename"], .readRequestResources⟩,
    ⟨"GET", "request", [.lit "files", .name, .lit "content"], .readRequestResources⟩,
    ⟨"GET", "request", [.lit "body"], .readRequestResources⟩,
    ⟨"PUT", "response", [.lit "status"], .writeResponseResources⟩,
    ⟨"PUT", "response", [.lit "headers", .name], .writeResponseResources⟩,
    ⟨"PUT", "response", [.lit "cookies", .name], .writeResponseResources⟩,
    ⟨"PUT", "response", [.lit "body"], .writeResponseResources⟩,
    ⟨"PUT", "response", [.lit "stream"], .writeResponseResources⟩ ]

/-- Modelled from the spec: `configRouter()` registers exactly the routes
of the catalogue. -/
def configRouter : Router := { routes := catalogue }

/-- Modelled from the spec: a token is what a path variable captures, a
non-empty run of characters without a slash. -/
def isToken (s : String) : Prop := s ≠ "" ∧ '/' ∉ s.data

instance (s : String) : Decidable (isToken s) := by
  unfold isToken
  exact inferInstance

/-- Modelled from the spec: cuts a run of characters at every slash. -/
def splitSlash : List Char → List (List Char)
  | [] => [[]]
  | c :: cs =>
    if c = '/' then [] :: splitSlash cs
    else
      match splitSlash cs with
      | [] => [[c]]
      | seg :: segs => (c :: seg) :: segs

/-- Modelled from the spec: the segments of a URL path, which starts with a
slash; a path that does not has none. -/
def pathSegments (path : String) : Option (List String) :=
  match path.data with
  | '/' :: cs => some ((splitSlash cs).map String.mk)
  | _ => none

/-- Modelled from the spec: a fixed word matches itself only, the variable
`name` matches any token. -/
def Seg.accepts : Seg → String → Bool
  | .lit word, seg => seg == word
  | .name, seg => seg != ""

/-- Modelled from the spec: a shape matches the whole of the remaining
path, segment by segment, never a proper initial part of it. -/
def shapeAccepts : List Seg → List String → Bool
  | [], [] => true
  | p :: ps, seg :: segs => p.accepts seg && shapeAccepts ps segs
  | _, _ => false

/-- Modelled from the spec: one route against a verb and the segments of a
path `/handlers/<handler_id>/<side>/<resource_path>`.  On a match the
variables are `handler_id` and `resource_path`, the latter being the whole
remainder after the side. -/
def Route.matchSegments (r : Route) (method : String) : List String → Option RouteMatch
  | first :: id :: side :: rest =>
    if first = "handlers" ∧ id ≠ "" ∧ side = r.side ∧ method = r.verb ∧
        shapeAccepts r.shape rest = true then
      some { handler := r.entry,
             vars := [("handler_id", id), ("resource_path", String.intercalate "/" rest)] }
    else none
  | _ => none

/-- Modelled from the spec: `Match` tries the routes in registration order
and reports the first that matches; `none` is the non-match. -/
def Router.Match (r : Router) (method path : String) : Option RouteMatch :=
  match pathSegments path with
  | some segs => r.routes.findSome? (fun route => route.matchSegments method segs)
  | none => none

/-- Modelled from the spec: the text a shape segment stands for in a URL,
the word itself, or the name `N` in the place of the variable. -/
def Seg.fill (N : String) : Seg → String
  | .lit word => word
  | .name => N

/-- Modelled from the spec: the URL path of a catalogue route for the
handler id `X` and the name `N`, `/handlers/X/<side>/<resource path>`. -/
def Route.url (r : Route) (X N : String) : String :=
  "/handlers/" ++ X ++ "/" ++ r.side ++ "/" ++
    String.intercalate "/" (r.shape.map (Seg.fill N))

/-- The URL path made of the given segments, each preceded by a slash. -/
def urlPath (segs : List String) : String :=
  segs.foldr (fun seg acc => "/" ++ seg ++ acc) ""

/-! ## Resource accessors

`getRequestHeader`, `copyFromRequestBody`, `copyToResponseBody` and
`copyToResponseStream` are defined in the file of the package that is not
among the sources; the tests call them.  They are written here from the
accessor contracts of the specification.  A byte source is the sequence of
chunks its successive reads hand out, ended by end-of-stream or by a
transport failure; a destination is an in-memory sink, as in the tests. -/

/-- Modelled from the spec: the error taxonomy of the data API. -/
inductive DataError where
  | HandlerNotFound
  | ResourceNotFound
  | MalformedInput
  | TransportFailure
deriving DecidableEq, Repr

/-- Modelled from the spec: a byte source (an `io.Reader`), the chunks that
its successive reads return, and whether the stream then breaks with a
transport failure instead of ending. -/
structure Reader where
  chunks : List (List UInt8)
  broken : Bool
deriving DecidableEq, Repr

/-- Modelled from the spec: the source hands out exactly the bytes `b`, in
whatever pieces, and then ends cleanly. -/
def Reader.yields (r : Reader) (b : List UInt8) : Prop :=
  r.chunks.flatten = b ∧ r.broken = false

instance (r : Reader) (b : List UInt8) : Decidable (r.yields b) := by
  unfold Reader.yields
  exact inferInstance

/-- Modelled from the spec: a destination of bytes (an `io.Writer` kept in
memory), what has been written to it and in how many writes. -/
structure Sink where
  written : List UInt8
  writes : Nat
deriving DecidableEq, Repr

/-- Modelled from the spec: one `Write` call on a sink. -/
def Sink.write (w : Sink) (chunk : List UInt8) : Sink :=
  { written := w.written ++ chunk, writes := w.writes + 1 }

/-- Modelled from the spec: the part of the live inbound request that the
header and body accessors read, its headers in the order they were added
and its body stream. -/
structure Request where
  method : String
  headers : List (String × String)
  body : Reader
deriving DecidableEq, Repr

/-- Modelled from the spec: the outbound response as a recorder keeps it,
the status, the body written so far, the number of writes and of flushes. -/
structure Response where
  status : Nat
  body : Sink
  flushes : Nat
deriving DecidableEq, Repr

/-- Modelled from the spec: header names are compared without regard to
letter case. -/
def sameHeaderName (a b : String) : Bool :=
  a.data.map Char.toLower == b.data.map Char.toLower

/-- Modelled from the spec: `getRequestHeader(req, name)`, the first value of
the named header, or the not-found error when the request has none. -/
def getRequestHeader (req : Request) (name : String) : Except DataError String :=
  match req.headers.find? (fun kv => sameHeaderName kv.1 name) with
  | some kv => .ok kv.2
  | none => .error .ResourceNotFound

/-- Modelled from the spec: the pass-through copy of a source into a sink,
one write per chunk read; a transport failure of the source is reported
after what was read before it has been written. -/
def copyChunks (w : Sink) (src : Reader) : Sink × Option DataError :=
  (src.chunks.foldl Sink.write w,
    if src.broken then some .TransportFailure else none)

/-- Modelled from the spec: `copyFromRequestBody(req, w)`, the straight
pass-through copy of the request body into `w`. -/
def copyFromRequestBody (req : Request) (w : Sink) : Sink × Option DataError :=
  copyChunks w req.body

/-- Modelled from the spec: `copyToResponseBody(res, r)`, the whole source
read first and then put into the response body as a single write; when the
source breaks nothing is written. -/
def copyToResponseBody (res : Response) (r : Reader) : Response × Option DataError :=
  if r.broken then (res, some .TransportFailure)
  else ({ res with body := res.body.write r.chunks.flatten }, none)

/-- Modelled from the spec: `copyToResponseStream(res, r)`, the source
copied into the response body chunk by chunk, each write followed by a
flush, so that transmission starts before the source is exhausted. -/
def copyToResponseStream (res : Response) (r : Reader) : Response × Option DataError :=
  (r.chunks.foldl
      (fun acc chunk => { acc with body := acc.body.write chunk, flushes := acc.flushes + 1 })
      res,
    if r.broken then some .TransportFailure else none)

/-- The bytes of an ASCII text. -/
def asciiBytes (text : String) : List UInt8 :=
  text.data.map (fun c => c.toNat.toUInt8)

/-! ## Sample data -/

/-- A handler registered under the id `"a"`. -/
def handlerA : Handler := { ID := "a", request := 1, response := 2 }

/-- Another handler with the id `"a"`, bound to a different request. -/
def handlerA2 : Handler := { ID := "a", request := 3, response := 4 }

/-- A handler registered under the id `"b"`. -/
def handlerB : Handler := { ID := "b", request := 5, response := 6 }

/-- The registry holding `handlerA` and `handlerB`, lock free. -/
def registryAB : safeHandlerMap :=
  { hs := (AList.singleton "b" (some handlerB)).insert "a" (some handlerA), m := RWMutex.free }

/-- The request of the header tests: a GET carrying `A-Header: With-Value`. -/
def requestWithHeader : Request :=
  { method := "GET", headers := [("A-Header", "With-Value")],
    body := { chunks := [], broken := false } }

/-- The body text of the copy tests. -/
def testBody : List UInt8 := asciiBytes "This is a body content for testing purposes"

/-- A source that hands out `testBody` in two reads. -/
def testBodyReader : Reader :=
  { chunks := [testBody.take 10, testBody.drop 10], broken := false }

/-- The request of the body test: a POST whose body is `testBody`. -/
def requestWithBody : Request :=
  { method := "POST", headers := [("A-Header", "With-Value")], body := testBodyReader }

/-- A response recorder to which nothing has been written. -/
def freshRecorder : Response :=
  { status := 200, body := { written := [], writes := 0 }, flushes := 0 }

/-! ## Each operation on a registry whose lock is free -/

theorem RWMutex.lock_unlock_free :
    (RWMutex.free.Lock >>= RWMutex.Unlock) = .ok RWMutex.free := rfl

theorem RWMutex.rlock_runlock_free :
    (RWMutex.free.RLock >>= RWMutex.RUnlock) = .ok RWMutex.free := rfl

namespace safeHandlerMap

theorem Add_some_of_free (shm : safeHandlerMap) (h : Handler) (hm : shm.m = RWMutex.free) :
    shm.Add (some h) = .ok { hs := shm.hs.insert h.ID (some h), m := RWMutex.free } := by
  simp [Add, hm, RWMutex.Lock, RWMutex.Unlock, RWMutex.free, bind, Except.bind, pure,
    Except.pure]

theorem Add_nil_of_free (shm : safeHandlerMap) (hm : shm.m = RWMutex.free) :
    shm.Add none = .error .nilDereference := by
  simp [Add, hm, RWMutex.Lock, RWMutex.free, bind, Except.bind]

theorem Remove_of_free (shm : safeHandlerMap) (id : String) (hm : shm.m = RWMutex.free) :
    shm.Remove id = .ok { hs := shm.hs.erase id, m := RWMutex.free } := by
  simp [Remove, hm, RWMutex.Lock, RWMutex.Unlock, RWMutex.free, bind, Except.bind, pure,
    Except.pure]

theorem Get_of_free (shm : safeHandlerMap) (id : String) (hm : shm.m = RWMutex.free) :
    shm.Get id = .ok (index shm.hs id, shm) := by
  obtain ⟨hs, m⟩ := shm
  subst hm
  simp [Get, RWMutex.RLock, RWMutex.RUnlock, RWMutex.free, bind, Except.bind, pure,
    Except.pure]

theorem rangeAppend_eq_map (order : List (Sigma fun _ : String => HandlerPtr)) :
    rangeAppend order = order.map Sigma.fst := by
  have key : ∀ (l : List (Sigma fun _ : String => HandlerPtr)) (acc : List String),
      l.foldl (fun ids e => ids ++ [e.1]) acc = acc ++ l.map Sigma.fst := by
    intro l
    induction l with
    | nil => intro acc; simp
    | cons e l ih => intro acc; simp [ih]
  simpa [rangeAppend] using key order []

theorem ListIDs_of_free (shm : safeHandlerMap)
    (order : List (Sigma fun _ : String => HandlerPtr)) (hm : shm.m = RWMutex.free) :
    shm.ListIDs order = .ok (order.map Sigma.fst, shm) := by
  obtain ⟨hs, m⟩ := shm
  subst hm
  simp [ListIDs, rangeAppend_eq_map, RWMutex.RLock, RWMutex.RUnlock, RWMutex.free, bind,
    Except.bind, pure, Except.pure]

theorem index_insert_self (hs : HandlerMap) (id : String) (p : HandlerPtr) :
    index (hs.insert id p) id = (p, true) := by
  simp [index, AList.lookup_insert]

theorem index_insert_ne (hs : HandlerMap) {id id' : String} (p : HandlerPtr) (hne : id' ≠ id) :
    index (hs.insert id p) id' = index hs id' := by
  simp [index, AList.lookup_insert_ne hne]

theorem index_erase_self (hs : HandlerMap) (id : String) :
    index (hs.erase id) id = (none, false) := by
  simp [index, AList.lookup_erase]

theorem index_erase_ne (hs : HandlerMap) {id id' : String} (hne : id' ≠ id) :
    index (hs.erase id) id' = index hs id' := by
  simp [index, AList.lookup_erase_ne hne]

theorem index_snd_eq_true (hs : HandlerMap) (id : String) :
    (index hs id).2 = true ↔ id ∈ hs.keys := by
  rw [← AList.mem_keys, ← AList.lookup_isSome]
  unfold index
  cases hs.lookup id <;> simp

theorem rangeOrder_keys {shm : safeHandlerMap}
    {order : List (Sigma fun _ : String => HandlerPtr)} (ho : shm.RangeOrder order) :
    (order.map Sigma.fst).Perm shm.hs.keys :=
  List.Perm.map Sigma.fst ho

end safeHandlerMap

/-! ## Runs from `New()` -/

theorem step_of_free (shm : safeHandlerMap) (op : Op) (hm : shm.m = RWMutex.free) :
    ∃ shm', step shm op = .ok shm' ∧ shm'.m = RWMutex.free := by
  cases op with
  | add h => exact ⟨_, shm.Add_some_of_free h hm, rfl⟩
  | remove id => exact ⟨_, shm.Remove_of_free id hm, rfl⟩

theorem run_of_free (ops : List Op) :
    ∀ shm : safeHandlerMap, shm.m = RWMutex.free →
      ∃ shm', run ops shm = .ok shm' ∧ shm'.m = RWMutex.free := by
  induction ops with
  | nil => intro shm hm; exact ⟨shm, rfl, hm⟩
  | cons op ops ih =>
    intro shm hm
    obtain ⟨s1, h1, hm1⟩ := step_of_free shm op hm
    obtain ⟨s2, h2, hm2⟩ := ih s1 hm1
    exact ⟨s2, by simp [run, h1, h2, bind, Except.bind], hm2⟩

theorem run_append (ops : List Op) (op : Op) :
    ∀ shm : safeHandlerMap, run (ops ++ [op]) shm = run ops shm >>= fun s => step s op := by
  induction ops with
  | nil =>
    intro shm
    simp only [List.nil_append, run, bind, Except.bind]
    cases step shm op <;> rfl
  | cons o ops ih =>
    intro shm
    simp only [List.cons_append, run, bind, Except.bind]
    cases step shm o with
    | error e => rfl
    | ok s => simpa [bind, Except.bind] using ih s

theorem lastConcerning_append (ops : List Op) (op : Op) (id : String) :
    lastConcerning (ops ++ [op]) id =
      if op.concerns id then some op else lastConcerning ops id := by
  simp [lastConcerning, List.find?_cons]
  cases op.concerns id <;> simp

theorem specMap_append (ops : List Op) (op : Op) (id : String) :
    specMap (ops ++ [op]) id =
      match op with
      | .add h => if id = h.ID then some h else specMap ops id
      | .remove i => if id = i then none else specMap ops id := by
  simp only [specMap, List.foldl_append, List.foldl_cons, List.foldl_nil]

/-- After any run from `New()` the lock is free and the map read agrees
with both readings of the specification. -/
theorem run_New_index (ops : List Op) :
    ∃ shm, run ops New = .ok shm ∧ shm.m = RWMutex.free ∧
      ∀ id, safeHandlerMap.index shm.hs id = specGet ops id ∧
        safeHandlerMap.index shm.hs id = (specMap ops id, (specMap ops id).isSome) := by
  induction ops using List.reverseRecOn with
  | nil =>
    refine ⟨New, rfl, rfl, fun id => ?_⟩
    simp [New, safeHandlerMap.index, specGet, lastConcerning, specMap]
  | append_singleton ops op ih =>
    obtain ⟨s, hrun, hm, hidx⟩ := ih
    cases op with
    | add h =>
      refine ⟨{ hs := s.hs.insert h.ID (some h), m := RWMutex.free }, ?_, rfl, fun id => ?_⟩
      · rw [run_append, hrun]
        exact s.Add_some_of_free h hm
      · by_cases hid : h.ID = id
        · subst hid
          simp [safeHandlerMap.index_insert_self, specGet, lastConcerning_append,
            specMap_append, Op.concerns]
        · have hne : id ≠ h.ID := fun e => hid e.symm
          rw [safeHandlerMap.index_insert_ne _ _ hne]
          simpa [specGet, lastConcerning_append, specMap_append, Op.concerns, hid, hne]
            using hidx id
    | remove i =>
      refine ⟨{ hs := s.hs.erase i, m := RWMutex.free }, ?_, rfl, fun id => ?_⟩
      · rw [run_append, hrun]
        exact s.Remove_of_free i hm
      · by_cases hid : i = id
        · subst hid
          simp [safeHandlerMap.index_erase_self, specGet, lastConcerning_append,
            specMap_append, Op.concerns]
        · have hne : id ≠ i := fun e => hid e.symm
          rw [safeHandlerMap.index_erase_ne _ hne]
          simpa [specGet, lastConcerning_append, specMap_append, Op.concerns, hid, hne]
            using hidx id

theorem specGet_eq_some_iff (ops : List Op) (id : String) (h : Handler) :
    specGet ops id = (some h, true) ↔ lastConcerning ops id = some (Op.add h) := by
  unfold specGet
  split
  · next h' heq => simp [heq]
  · next hne =>
    constructor
    · intro hc; simp at hc
    · intro hc; exact absurd hc (hne h)

theorem lastConcerning_concerns {ops : List Op} {id : String} {op : Op}
    (hl : lastConcerning ops id = some op) : op.concerns id = true := by
  unfold lastConcerning at hl
  exact List.find?_some hl

/-! ## The claims -/

/-- C1: in every registry state reached from `New()`, for every non-nil
handler `h`, `Add(h)` returns and the following `Get(h.ID)` returns exactly
`(h, true)`. -/
theorem C1_get_after_add (ops : List Op) (h : Handler) :
    ∃ shm shm', run ops New = .ok shm ∧ shm.Add (some h) = .ok shm' ∧
      shm'.Get h.ID = .ok ((some h, true), shm') := by
  obtain ⟨shm, hrun, hm, -⟩ := run_New_index ops
  refine ⟨shm, _, hrun, shm.Add_some_of_free h hm, ?_⟩
  rw [safeHandlerMap.Get_of_free _ _ rfl, safeHandlerMap.index_insert_self]

/-- C2: in every registry state (lock free) and for every id, registered
before or not, `Remove(id)` returns and the following `Get(id)` returns the
nil handler and `false`. -/
theorem C2_get_after_remove (shm : safeHandlerMap) (id : String)
    (hm : shm.m = RWMutex.free) :
    ∃ shm', shm.Remove id = .ok shm' ∧ shm'.Get id = .ok ((none, false), shm') := by
  refine ⟨_, shm.Remove_of_free id hm, ?_⟩
  rw [safeHandlerMap.Get_of_free _ _ rfl, safeHandlerMap.index_erase_self]

theorem C2_get_after_remove_witness :
    registryAB.m = RWMutex.free ∧
      ∃ shm', registryAB.Remove "a" = .ok shm' ∧ shm'.Get "a" = .ok ((none, false), shm') :=
  ⟨rfl, C2_get_after_remove registryAB "a" rfl⟩

/-- C3: after every finite sequence of `Add` and `Remove` calls on a
registry made by `New()`, and for every id, `Get(id)` returns `(h, true)`
exactly when the last call naming `id` is `Add(h)` with `h.ID = id`, and
returns `(nil, false)` when there is no such call or the last one is
`Remove(id)`; equivalently `Get` is the lookup in the finite map on which
`Add` inserts and `Remove` erases. -/
theorem C3_registry_refines_finite_map (ops : List Op) (id : String) :
    ∃ shm, run ops New = .ok shm ∧
      shm.Get id = .ok (specGet ops id, shm) ∧
      (∀ h : Handler, shm.Get id = .ok ((some h, true), shm) ↔
        (lastConcerning ops id = some (Op.add h) ∧ h.ID = id)) ∧
      ((lastConcerning ops id = none ∨ lastConcerning ops id = some (Op.remove id)) →
        shm.Get id = .ok ((none, false), shm)) ∧
      shm.Get id = .ok ((specMap ops id, (specMap ops id).isSome), shm) := by
  obtain ⟨shm, hrun, hm, hidx⟩ := run_New_index ops
  have hget := shm.Get_of_free id hm
  refine ⟨shm, hrun, ?_, ?_, ?_, ?_⟩
  · rw [hget, (hidx id).1]
  · intro h
    rw [hget, (hidx id).1]
    constructor
    · intro he
      have hs : specGet ops id = (some h, true) := by
        injection he with he
        exact (Prod.mk.inj he).1
      have hl := (specGet_eq_some_iff ops id h).1 hs
      refine ⟨hl, ?_⟩
      simpa [Op.concerns] using lastConcerning_concerns hl
    · rintro ⟨hl, -⟩
      rw [(specGet_eq_some_iff ops id h).2 hl]
  · intro hl
    rw [hget, (hidx id).1]
    rcases hl with hl | hl <;> simp [specGet, hl]
  · rw [hget, (hidx id).2]

/-- C4: `Add` overwrites.  In every registry state (lock free), for two
handlers `h1`, `h2` with the same ID, after `Add(h1)` and then `Add(h2)` the
call `Get(h1.ID)` returns `(h2, true)`, and the id occurs exactly once in
`ListIDs()` whatever order `range` takes. -/
theorem C4_add_overwrites (shm : safeHandlerMap) (h1 h2 : Handler)
    (hm : shm.m = RWMutex.free) (hid : h1.ID = h2.ID) :
    ∃ s1 s2, shm.Add (some h1) = .ok s1 ∧ s1.Add (some h2) = .ok s2 ∧
      s2.Get h1.ID = .ok ((some h2, true), s2) ∧
      ∀ order, s2.RangeOrder order →
        ∃ ids, s2.ListIDs order = .ok (ids, s2) ∧ ids.count h1.ID = 1 := by
  refine ⟨_, _, shm.Add_some_of_free h1 hm, safeHandlerMap.Add_some_of_free _ h2 rfl, ?_, ?_⟩
  · rw [safeHandlerMap.Get_of_free _ _ rfl, hid, safeHandlerMap.index_insert_self]
  · intro order ho
    refine ⟨_, safeHandlerMap.ListIDs_of_free _ order rfl, ?_⟩
    have hp := safeHandlerMap.rangeOrder_keys ho
    rw [hp.count_eq]
    apply List.count_eq_one_of_mem (AList.keys_nodup _)
    rw [← AList.mem_keys, AList.mem_insert]
    exact Or.inl hid

theorem C4_add_overwrites_witness :
    registryAB.m = RWMutex.free ∧ handlerA.ID = handlerA2.ID ∧
      ∃ s1 s2, registryAB.Add (some handlerA) = .ok s1 ∧ s1.Add (some handlerA2) = .ok s2 ∧
        s2.Get handlerA.ID = .ok ((some handlerA2, true), s2) ∧
        ∀ order, s2.RangeOrder order →
          ∃ ids, s2.ListIDs order = .ok (ids, s2) ∧ ids.count handlerA.ID = 1 :=
  ⟨rfl, rfl, C4_add_overwrites registryAB handlerA handlerA2 rfl rfl⟩

/-- C5: `Remove` of an absent id is a no-op and not an error.  In every
registry state (lock free) and for every id for which `Get(id)` returns
`false`, `Remove(id)` returns normally and leaves the registry as it was:
every `Get` and every `ListIDs()` answer as before, and the stored ids are
the same. -/
theorem C5_remove_absent_noop (shm : safeHandlerMap) (id : String)
    (hm : shm.m = RWMutex.free)
    (habsent : ∃ p shm', shm.Get id = .ok ((p, false), shm')) :
    ∃ shm', shm.Remove id = .ok shm' ∧ shm' = shm ∧
      (∀ id', shm'.Get id' = shm.Get id') ∧
      (∀ order, shm'.ListIDs order = shm.ListIDs order) ∧
      shm'.hs.keys = shm.hs.keys := by
  obtain ⟨p, s, hg⟩ := habsent
  rw [safeHandlerMap.Get_of_free _ _ hm] at hg
  have hfalse : (safeHandlerMap.index shm.hs id).2 = false := by
    injection hg with hg
    rw [(Prod.mk.inj hg).1]
  have hnot : id ∉ shm.hs.keys := by
    intro hmem
    rw [(safeHandlerMap.index_snd_eq_true shm.hs id).2 hmem] at hfalse
    exact Bool.noConfusion hfalse
  have herase : shm.hs.erase id = shm.hs :=
    AList.ext (List.kerase_of_not_mem_keys hnot)
  have hsame : ({ hs := shm.hs.erase id, m := RWMutex.free } : safeHandlerMap) = shm := by
    obtain ⟨hs, m⟩ := shm
    simp only at hm herase
    rw [herase, hm]
  refine ⟨_, shm.Remove_of_free id hm, hsame, ?_, ?_, ?_⟩
  · intro id'; rw [hsame]
  · intro order; rw [hsame]
  · rw [hsame]

theorem C5_remove_absent_noop_witness :
    registryAB.m = RWMutex.free ∧
      (∃ p shm', registryAB.Get "c" = .ok ((p, false), shm')) ∧
      ∃ shm', registryAB.Remove "c" = .ok shm' ∧ shm' = registryAB ∧
        (∀ id', shm'.Get id' = registryAB.Get id') ∧
        (∀ order, shm'.ListIDs order = registryAB.ListIDs order) ∧
        shm'.hs.keys = registryAB.hs.keys :=
  ⟨rfl, ⟨none, registryAB, rfl⟩,
    C5_remove_absent_noop registryAB "c" rfl ⟨none, registryAB, rfl⟩⟩

/-- C6: `ListIDs()` is a snapshot of the registered ids.  In every registry
state (lock free) and for every order `range` may take, an id occurs in
`ListIDs()` if and only if `Get(id)` returns `true`, no id occurs twice, and
the length is the number of registered handlers. -/
theorem C6_listIDs_snapshot (shm : safeHandlerMap)
    (order : List (Sigma fun _ : String => HandlerPtr))
    (hm : shm.m = RWMutex.free) (ho : shm.RangeOrder order) :
    ∃ ids, shm.ListIDs order = .ok (ids, shm) ∧
      (∀ id, id ∈ ids ↔ ∃ p, shm.Get id = .ok ((p, true), shm)) ∧
      ids.Nodup ∧ ids.length = shm.hs.entries.length := by
  have hp := safeHandlerMap.rangeOrder_keys ho
  refine ⟨_, shm.ListIDs_of_free order hm, ?_, ?_, ?_⟩
  · intro id
    rw [hp.mem_iff, ← safeHandlerMap.index_snd_eq_true, safeHandlerMap.Get_of_free _ _ hm]
    constructor
    · intro ht
      refine ⟨(safeHandlerMap.index shm.hs id).1, ?_⟩
      rw [← ht]
    · rintro ⟨p, he⟩
      injection he with he
      rw [(Prod.mk.inj he).1]
  · exact hp.nodup_iff.2 (AList.keys_nodup _)
  · rw [List.length_map]
    exact ho.length_eq

theorem C6_listIDs_snapshot_witness :
    registryAB.m = RWMutex.free ∧
      registryAB.RangeOrder [⟨"b", some handlerB⟩, ⟨"a", some handlerA⟩] ∧
      ∃ ids, registryAB.ListIDs [⟨"b", some handlerB⟩, ⟨"a", some handlerA⟩] =
          .ok (ids, registryAB) ∧
        (∀ id, id ∈ ids ↔ ∃ p, registryAB.Get id = .ok ((p, true), registryAB)) ∧
        ids.Nodup ∧ ids.length = registryAB.hs.entries.length :=
  ⟨rfl, List.Perm.swap _ _ _,
    C6_listIDs_snapshot registryAB [⟨"b", some handlerB⟩, ⟨"a", some handlerA⟩] rfl
      (List.Perm.swap _ _ _)⟩

/-- C7: `Get` and `ListIDs` are pure lookups.  In every registry state
(lock free) and for every id, `Get(id)` and `ListIDs()` return and leave the
registry exactly as it was, so a second `Get(id)` with no `Add` or `Remove`
in between, also after a `ListIDs()`, returns the same pair. -/
theorem C7_get_listIDs_pure (shm : safeHandlerMap) (id : String)
    (hm : shm.m = RWMutex.free) :
    (∃ r shm', shm.Get id = .ok (r, shm') ∧ shm' = shm ∧ shm'.Get id = .ok (r, shm')) ∧
      ∀ order, ∃ ids shm', shm.ListIDs order = .ok (ids, shm') ∧ shm' = shm ∧
        shm'.Get id = shm.Get id := by
  refine ⟨⟨_, shm, shm.Get_of_free id hm, rfl, shm.Get_of_free id hm⟩, fun order => ?_⟩
  exact ⟨_, shm, shm.ListIDs_of_free order hm, rfl, rfl⟩

theorem C7_get_listIDs_pure_witness :
    registryAB.m = RWMutex.free ∧
      (∃ r shm', registryAB.Get "b" = .ok (r, shm') ∧ shm' = registryAB ∧
        shm'.Get "b" = .ok (r, shm')) ∧
      ∀ order, ∃ ids shm', registryAB.ListIDs order = .ok (ids, shm') ∧ shm' = registryAB ∧
        shm'.Get "b" = registryAB.Get "b" :=
  ⟨rfl, C7_get_listIDs_pure registryAB "b" rfl⟩

/-- C8: a registry fresh from `New()`, and so the package variable
`Handlers` at start-up, is empty: `Get(id)` returns `(nil, false)` for every
id and `ListIDs()` returns a sequence of length 0. -/
theorem C8_new_is_empty :
    Handlers = New ∧
      (∀ id, New.Get id = .ok ((none, false), New)) ∧
      New.ListIDs [] = .ok ([], New) ∧
      ∀ order, New.RangeOrder order →
        ∃ ids, New.ListIDs order = .ok (ids, New) ∧ ids.length = 0 := by
  refine ⟨rfl, fun id => ?_, rfl, fun order ho => ?_⟩
  · rw [safeHandlerMap.Get_of_free _ _ rfl]
    rfl
  · have hnil : order = [] := List.Perm.eq_nil ho
    subst hnil
    exact ⟨[], rfl, rfl⟩

/-- C9, as the claim states it, fails: `Add` of the nil pointer on the
registry from `New()` does not return normally; reading `h.ID` panics. -/
theorem C9_add_nil_panics :
    New.Add none = .error Fault.nilDereference ∧ ¬ ∃ shm', New.Add none = .ok shm' := by
  refine ⟨rfl, ?_⟩
  rintro ⟨s, hs⟩
  rw [safeHandlerMap.Add_nil_of_free New rfl] at hs
  exact Except.noConfusion hs

/-- C9, amended: in every state of a registry made by `New()`, `Add` of a
non-nil handler returns normally, and its effect is visible to the next
`Get` and the next `ListIDs()`: `Get(h.ID)` finds `h` and `h.ID` is listed. -/
theorem C9_add_non_nil_returns (ops : List Op) (h : Handler) :
    ∃ shm shm', run ops New = .ok shm ∧ shm.Add (some h) = .ok shm' ∧
      shm'.Get h.ID = .ok ((some h, true), shm') ∧
      ∀ order, shm'.RangeOrder order →
        ∃ ids, shm'.ListIDs order = .ok (ids, shm') ∧ h.ID ∈ ids := by
  obtain ⟨shm, hrun, hm⟩ := run_of_free ops New rfl
  refine ⟨shm, _, hrun, shm.Add_some_of_free h hm, ?_, fun order ho => ?_⟩
  · rw [safeHandlerMap.Get_of_free _ _ rfl, safeHandlerMap.index_insert_self]
  · refine ⟨_, safeHandlerMap.ListIDs_of_free _ order rfl, ?_⟩
    rw [(safeHandlerMap.rangeOrder_keys ho).mem_iff, ← AList.mem_keys, AList.mem_insert]
    exact Or.inl rfl

/-! ## Paths and the router -/

theorem splitSlash_ne_nil (cs : List Char) : splitSlash cs ≠ [] := by
  induction cs with
  | nil => simp [splitSlash]
  | cons c cs ih =>
    unfold splitSlash
    split
    · simp
    · split <;> simp

theorem splitSlash_token (t : List Char) (ht : '/' ∉ t) : splitSlash t = [t] := by
  induction t with
  | nil => rfl
  | cons c t ih =>
    have hc : c ≠ '/' := fun e => ht (by simp [e])
    have ht' : '/' ∉ t := fun hmem => ht (List.mem_cons_of_mem _ hmem)
    simp [splitSlash, hc, ih ht']

theorem splitSlash_append_slash (t rest : List Char) (ht : '/' ∉ t) :
    splitSlash (t ++ '/' :: rest) = t :: splitSlash rest := by
  induction t with
  | nil => simp [splitSlash]
  | cons c t ih =>
    have hc : c ≠ '/' := fun e => ht (by simp [e])
    have ht' : '/' ∉ t := fun hmem => ht (List.mem_cons_of_mem _ hmem)
    simp [splitSlash, hc, ih ht']

theorem urlPath_cons (seg : String) (segs : List String) :
    (urlPath (seg :: segs)).data = '/' :: (seg.data ++ (urlPath segs).data) := by
  simp [urlPath, String.data_append]

theorem splitSlash_urlPath (seg : String) (segs : List String)
    (htok : ∀ x ∈ seg :: segs, '/' ∉ x.data) :
    (splitSlash (seg.data ++ (urlPath segs).data)).map String.mk = seg :: segs := by
  induction segs generalizing seg with
  | nil =>
    have hseg : '/' ∉ seg.data := htok seg (by simp)
    simp [urlPath, splitSlash_token _ hseg]
  | cons next segs ih =>
    have hseg : '/' ∉ seg.data := htok seg (by simp)
    have hrest : ∀ x ∈ next :: segs, '/' ∉ x.data :=
      fun x hx => htok x (List.mem_cons_of_mem _ hx)
    rw [urlPath_cons, splitSlash_append_slash _ _ hseg, List.map_cons, ih next hrest]

/-- A path written from slash-free segments splits back into them. -/
theorem pathSegments_urlPath (seg : String) (segs : List String)
    (htok : ∀ x ∈ seg :: segs, '/' ∉ x.data) :
    pathSegments (urlPath (seg :: segs)) = some (seg :: segs) := by
  unfold pathSegments
  rw [urlPath_cons]
  simp only [splitSlash_urlPath seg segs htok]

theorem Match_urlPath (r : Router) (method seg : String) (segs : List String)
    (htok : ∀ x ∈ seg :: segs, '/' ∉ x.data) :
    r.Match method (urlPath (seg :: segs)) =
      r.routes.findSome? (fun route => route.matchSegments method (seg :: segs)) := by
  unfold Router.Match
  rw [pathSegments_urlPath seg segs htok]

/-- The router on a path of three or four segments below
`/handlers/<X>`, with `X` and the other segments free of slashes. -/
theorem Match_handlers_path (method X : String) (rest : List String)
    (hX : '/' ∉ X.data) (hrest : ∀ x ∈ rest, '/' ∉ x.data) :
    configRouter.Match method (urlPath ("handlers" :: X :: rest)) =
      catalogue.findSome? (fun route => route.matchSegments method ("handlers" :: X :: rest)) := by
  apply Match_urlPath
  intro x hx
  rcases List.mem_cons.1 hx with rfl | hx
  · decide
  · rcases List.mem_cons.1 hx with rfl | hx
    · exact hX
    · exact hrest x hx

theorem Match_catalogue_path (method X path : String) (rest : List String)
    (hX : '/' ∉ X.data) (hrest : ∀ x ∈ rest, '/' ∉ x.data)
    (hpath : path.data = (urlPath ("handlers" :: X :: rest)).data) :
    configRouter.Match method path =
      catalogue.findSome? (fun route => route.matchSegments method ("handlers" :: X :: rest)) := by
  rw [String.ext hpath]
  exact Match_handlers_path method X rest hX hrest

/-- C10: the router match table.  For every handler id token `X` and every
captured name `N`, each of the sixteen catalogue routes matches under its
listed verb: GET on `/handlers/X/request/...` resolves to
`readRequestResources` and PUT on `/handlers/X/response/...` resolves to
`writeResponseResources`, with route variables `handler_id = X` and
`resource_path` the whole suffix after `request/` or `response/`. -/
theorem C10_router_match_table (X N : String) (hX : isToken X) (hN : isToken N) :
    configRouter.Match "GET" ("/handlers/" ++ X ++ "/request/method") =
        some ⟨.readRequestResources, [("handler_id", X), ("resource_path", "method")]⟩ ∧
      configRouter.Match "GET" ("/handlers/" ++ X ++ "/request/host") =
        some ⟨.readRequestResources, [("handler_id", X), ("resource_path", "host")]⟩ ∧
      configRouter.Match "GET" ("/handlers/" ++ X ++ "/request/path") =
        some ⟨.readRequestResources, [("handler_id", X), ("resource_path", "path")]⟩ ∧
      configRouter.Match "GET" ("/handlers/" ++ X ++ "/request/matches/" ++ N) =
        some ⟨.readRequestResources, [("handler_id", X), ("resource_path", "matches/" ++ N)]⟩ ∧
      configRouter.Match "GET" ("/handlers/" ++ X ++ "/request/params/" ++ N) =
        some ⟨.readRequestResources, [("handler_id", X), ("resource_path", "params/" ++ N)]⟩ ∧
      configRouter.Match "GET" ("/handlers/" ++ X ++ "/request/headers/" ++ N) =
        some ⟨.readRequestResources, [("handler_id", X), ("resource_path", "headers/" ++ N)]⟩ ∧
      configRouter.Match "GET" ("/handlers/" ++ X ++ "/request/cookies/" ++ N) =
        some ⟨.readRequestResources, [("handler_id", X), ("resource_path", "cookies/" ++ N)]⟩ ∧
      configRouter.Match "GET" ("/handlers/" ++ X ++ "/request/form/" ++ N) =
        some ⟨.readRequestResources, [("handler_id", X), ("resource_path", "form/" ++ N)]⟩ ∧
      configRouter.Match "GET" ("/handlers/" ++ X ++ "/request/files/" ++ N ++ "/filename") =
        some ⟨.readRequestResources, [("handler_id", X), ("resource_path", "files/" ++ N ++ "/filename")]⟩ ∧
      configRouter.Match "GET" ("/handlers/" ++ X ++ "/request/files/" ++ N ++ "/content") =
        some ⟨.readRequestResources, [("handler_id", X), ("resource_path", "files/" ++ N ++ "/content")]⟩ ∧
      configRouter.Match "GET" ("/handlers/" ++ X ++ "/request/body") =
        some ⟨.readRequestResources, [("handler_id", X), ("resource_path", "body")]⟩ ∧
      configRouter.Match "PUT" ("/handlers/" ++ X ++ "/response/status") =
        some ⟨.writeResponseResources, [("handler_id", X), ("resource_path", "status")]⟩ ∧
      configRouter.Match "PUT" ("/handlers/" ++ X ++ "/response/headers/" ++ N) =
        some ⟨.writeResponseResources, [("handler_id", X), ("resource_path", "headers/" ++ N)]⟩ ∧
      configRouter.Match "PUT" ("/handlers/" ++ X ++ "/response/cookies/" ++ N) =
        some ⟨.writeResponseResources, [("handler_id", X), ("resource_path", "cookies/" ++ N)]⟩ ∧
      configRouter.Match "PUT" ("/handlers/" ++ X ++ "/response/body") =
        some ⟨.writeResponseResources, [("handler_id", X), ("resource_path", "body")]⟩ ∧
      configRouter.Match "PUT" ("/handlers/" ++ X ++ "/response/stream") =
        some ⟨.writeResponseResources, [("handler_id", X), ("resource_path", "stream")]⟩ := by
  refine ⟨?_, ?_, ?_, ?_, ?_, ?_, ?_, ?_, ?_, ?_, ?_, ?_, ?_, ?_, ?_, ?_⟩
  · rw [Match_catalogue_path "GET" X _ ["request", "method"] hX.2 (by simp)
      (by simp [urlPath, String.data_append])]
    simp [catalogue, Route.matchSegments, shapeAccepts, Seg.accepts, hX.1,
      String.intercalate, String.intercalate.go]
  · rw [Match_catalogue_path "GET" X _ ["request", "host"] hX.2 (by simp)
      (by simp [urlPath, String.data_append])]
    simp [catalogue, Route.matchSegments, shapeAccepts, Seg.accepts, hX.1,
      String.intercalate, String.intercalate.go]
  · rw [Match_catalogue_path "GET" X _ ["request", "path"] hX.2 (by simp)
      (by simp [urlPath, String.data_append])]
    simp [catalogue, Route.matchSegments, shapeAccepts, Seg.accepts, hX.1,
      String.intercalate, String.intercalate.go]
  · rw [Match_catalogue_path "GET" X _ ["request", "matches", N] hX.2 (by simp [hN.2])
      (by simp [urlPath, String.data_append])]
    simp [catalogue, Route.matchSegments, shapeAccepts, Seg.accepts, hX.1, hN.1,
      String.intercalate, String.intercalate.go]
  · rw [Match_catalogue_path "GET" X _ ["request", "params", N] hX.2 (by simp [hN.2])
      (by simp [urlPath, String.data_append])]
    simp [catalogue, Route.matchSegments, shapeAccepts, Seg.accepts, hX.1, hN.1,
      String.intercalate, String.intercalate.go]
  · rw [Match_catalogue_path "GET" X _ ["request", "headers", N] hX.2 (by simp [hN.2])
      (by simp [urlPath, String.data_append])]
    simp [catalogue, Route.matchSegments, shapeAccepts, Seg.accepts, hX.1, hN.1,
      String.intercalate, String.intercalate.go]
  · rw [Match_catalogue_path "GET" X _ ["request", "cookies", N] hX.2 (by simp [hN.2])
      (by simp [urlPath, String.data_append])]
    simp [catalogue, Route.matchSegments, shapeAccepts, Seg.accepts, hX.1, hN.1,
      String.intercalate, String.intercalate.go]
  · rw [Match_catalogue_path "GET" X _ ["request", "form", N] hX.2 (by simp [hN.2])
      (by simp [urlPath, String.data_append])]
    simp [catalogue, Route.matchSegments, shapeAccepts, Seg.accepts, hX.1, hN.1,
      String.intercalate, String.intercalate.go]
  · rw [Match_catalogue_path "GET" X _ ["request", "files", N, "filename"] hX.2 (by simp [hN.2])
      (by simp [urlPath, String.data_append])]
    simp [catalogue, Route.matchSegments, shapeAccepts, Seg.accepts, hX.1, hN.1,
      String.intercalate, String.intercalate.go]
    apply String.ext
    simp [String.data_append]
  · rw [Match_catalogue_path "GET" X _ ["request", "files", N, "content"] hX.2 (by simp [hN.2])
      (by simp [urlPath, String.data_append])]
    simp [catalogue, Route.matchSegments, shapeAccepts, Seg.accepts, hX.1, hN.1,
      String.intercalate, String.intercalate.go]
    apply String.ext
    simp [String.data_append]
  · rw [Match_catalogue_path "GET" X _ ["request", "body"] hX.2 (by simp)
      (by simp [urlPath, String.data_append])]
    simp [catalogue, Route.matchSegments, shapeAccepts, Seg.accepts, hX.1,
      String.intercalate, String.intercalate.go]
  · rw [Match_catalogue_path "PUT" X _ ["response", "status"] hX.2 (by simp)
      (by simp [urlPath, String.data_append])]
    simp [catalogue, Route.matchSegments, shapeAccepts, Seg.accepts, hX.1,
      String.intercalate, String.intercalate.go]
  · rw [Match_catalogue_path "PUT" X _ ["response", "headers", N] hX.2 (by simp [hN.2])
      (by simp [urlPath, String.data_append])]
    simp [catalogue, Route.matchSegments, shapeAccepts, Seg.accepts, hX.1, hN.1,
      String.intercalate, String.intercalate.go]
  · rw [Match_catalogue_path "PUT" X _ ["response", "cookies", N] hX.2 (by simp [hN.2])
      (by simp [urlPath, String.data_append])]
    simp [catalogue, Route.matchSegments, shapeAccepts, Seg.accepts, hX.1, hN.1,
      String.intercalate, String.intercalate.go]
  · rw [Match_catalogue_path "PUT" X _ ["response", "body"] hX.2 (by simp)
      (by simp [urlPath, String.data_append])]
    simp [catalogue, Route.matchSegments, shapeAccepts, Seg.accepts, hX.1,
      String.intercalate, String.intercalate.go]
  · rw [Match_catalogue_path "PUT" X _ ["response", "stream"] hX.2 (by simp)
      (by simp [urlPath, String.data_append])]
    simp [catalogue, Route.matchSegments, shapeAccepts, Seg.accepts, hX.1,
      String.intercalate, String.intercalate.go]

theorem C10_router_match_table_witness :
    isToken "HANDLER_YYYYYYYYYYYYYYYY" ∧ isToken "name" ∧
      configRouter.Match "GET" "/handlers/HANDLER_YYYYYYYYYYYYYYYY/request/method" =
        some ⟨.readRequestResources, [("handler_id", "HANDLER_YYYYYYYYYYYYYYYY"), ("resource_path", "method")]⟩ ∧
      configRouter.Match "GET" "/handlers/HANDLER_YYYYYYYYYYYYYYYY/request/host" =
        some ⟨.readRequestResources, [("handler_id", "HANDLER_YYYYYYYYYYYYYYYY"), ("resource_path", "host")]⟩ ∧
      configRouter.Match "GET" "/handlers/HANDLER_YYYYYYYYYYYYYYYY/request/path" =
        some ⟨.readRequestResources, [("handler_id", "HANDLER_YYYYYYYYYYYYYYYY"), ("resource_path", "path")]⟩ ∧
      configRouter.Match "GET" "/handlers/HANDLER_YYYYYYYYYYYYYYYY/request/matches/name" =
        some ⟨.readRequestResources, [("handler_id", "HANDLER_YYYYYYYYYYYYYYYY"), ("resource_path", "matches/name")]⟩ ∧
      configRouter.Match "GET" "/handlers/HANDLER_YYYYYYYYYYYYYYYY/request/params/name" =
        some ⟨.readRequestResources, [("handler_id", "HANDLER_YYYYYYYYYYYYYYYY"), ("resource_path", "params/name")]⟩ ∧
      configRouter.Match "GET" "/handlers/HANDLER_YYYYYYYYYYYYYYYY/request/headers/name" =
        some ⟨.readRequestResources, [("handler_id", "HANDLER_YYYYYYYYYYYYYYYY"), ("resource_path", "headers/name")]⟩ ∧
      configRouter.Match "GET" "/handlers/HANDLER_YYYYYYYYYYYYYYYY/request/cookies/name" =
        some ⟨.readRequestResources, [("handler_id", "HANDLER_YYYYYYYYYYYYYYYY"), ("resource_path", "cookies/name")]⟩ ∧
      configRouter.Match "GET" "/handlers/HANDLER_YYYYYYYYYYYYYYYY/request/form/name" =
        some ⟨.readRequestResources, [("handler_id", "HANDLER_YYYYYYYYYYYYYYYY"), ("resource_path", "form/name")]⟩ ∧
      configRouter.Match "GET" "/handlers/HANDLER_YYYYYYYYYYYYYYYY/request/files/name/filename" =
        some ⟨.readRequestResources, [("handler_id", "HANDLER_YYYYYYYYYYYYYYYY"), ("resource_path", "files/name/filename")]⟩ ∧
      configRouter.Match "GET" "/handlers/HANDLER_YYYYYYYYYYYYYYYY/request/files/name/content" =
        some ⟨.readRequestResources, [("handler_id", "HANDLER_YYYYYYYYYYYYYYYY"), ("resource_path", "files/name/content")]⟩ ∧
      configRouter.Match "GET" "/handlers/HANDLER_YYYYYYYYYYYYYYYY/request/body" =
        some ⟨.readRequestResources, [("handler_id", "HANDLER_YYYYYYYYYYYYYYYY"), ("resource_path", "body")]⟩ ∧
      configRouter.Match "PUT" "/handlers/HANDLER_YYYYYYYYYYYYYYYY/response/status" =
        some ⟨.writeResponseResources, [("handler_id", "HANDLER_YYYYYYYYYYYYYYYY"), ("resource_path", "status")]⟩ ∧
      configRouter.Match "PUT" "/handlers/HANDLER_YYYYYYYYYYYYYYYY/response/headers/name" =
        some ⟨.writeResponseResources, [("handler_id", "HANDLER_YYYYYYYYYYYYYYYY"), ("resource_path", "headers/name")]⟩ ∧
      configRouter.Match "PUT" "/handlers/HANDLER_YYYYYYYYYYYYYYYY/response/cookies/name" =
        some ⟨.writeResponseResources, [("handler_id", "HANDLER_YYYYYYYYYYYYYYYY"), ("resource_path", "cookies/name")]⟩ ∧
      configRouter.Match "PUT" "/handlers/HANDLER_YYYYYYYYYYYYYYYY/response/body" =
        some ⟨.writeResponseResources, [("handler_id", "HANDLER_YYYYYYYYYYYYYYYY"), ("resource_path", "body")]⟩ ∧
      configRouter.Match "PUT" "/handlers/HANDLER_YYYYYYYYYYYYYYYY/response/stream" =
        some ⟨.writeResponseResources, [("handler_id", "HANDLER_YYYYYYYYYYYYYYYY"), ("resource_path", "stream")]⟩ :=
  ⟨by decide, by decide,
    C10_router_match_table "HANDLER_YYYYYYYYYYYYYYYY" "name" (by decide) (by decide)⟩

/-! ## Verbs that are not registered -/

/-- The segments of `/handlers/X/<side>/<tail>` for a token `X` and a side
without slash, whatever the tail is. -/
theorem pathSegments_side_tail (X side tail : String) (hX : '/' ∉ X.data)
    (hside : '/' ∉ side.data) :
    pathSegments ("/handlers/" ++ X ++ "/" ++ side ++ "/" ++ tail) =
      some ("handlers" :: X :: side :: (splitSlash tail.data).map String.mk) := by
  have hdata : ("/handlers/" ++ X ++ "/" ++ side ++ "/" ++ tail).data =
      '/' :: ("handlers".data ++ '/' :: (X.data ++ '/' :: (side.data ++ '/' :: tail.data))) := by
    simp [String.data_append]
  have hh : '/' ∉ "handlers".data := by decide
  unfold pathSegments
  rw [hdata]
  simp only [splitSlash_append_slash _ _ hh, splitSlash_append_slash _ _ hX,
    splitSlash_append_slash _ _ hside, List.map_cons]

/-- No route matches a path under a side on which the verb is not
registered. -/
theorem Match_eq_none_of_side (method X side tail : String) (hX : '/' ∉ X.data)
    (hside : '/' ∉ side.data)
    (hverb : ∀ r ∈ catalogue, r.side = side → method ≠ r.verb) :
    configRouter.Match method ("/handlers/" ++ X ++ "/" ++ side ++ "/" ++ tail) = none := by
  unfold Router.Match
  rw [pathSegments_side_tail X side tail hX hside]
  simp only [configRouter]
  rw [List.findSome?_eq_none_iff]
  intro r hr
  simp only [Route.matchSegments]
  rw [if_neg]
  rintro ⟨-, -, hs, hm, -⟩
  exact hverb r hr hs.symm hm

theorem catalogue_side_verb :
    ∀ r ∈ catalogue, '/' ∉ r.side.data ∧ ∀ r' ∈ catalogue, r'.side = r.side → r'.verb = r.verb := by
  decide

/-- C11: router non-match.  For every handler id token `X`, every name `N`
and every path shape of the catalogue, a request with a verb other than the
one listed for that shape matches no route; in particular POST, PUT and
DELETE on `/handlers/X/request/headers/N` and GET, POST and DELETE on
`/handlers/X/response/headers/N` are non-matches. -/
theorem C11_router_non_match (X N method : String) (hX : isToken X) :
    (∀ r ∈ catalogue, method ≠ r.verb → configRouter.Match method (r.url X N) = none) ∧
      configRouter.Match "POST" ("/handlers/" ++ X ++ "/request/headers/" ++ N) = none ∧
      configRouter.Match "PUT" ("/handlers/" ++ X ++ "/request/headers/" ++ N) = none ∧
      configRouter.Match "DELETE" ("/handlers/" ++ X ++ "/request/headers/" ++ N) = none ∧
      configRouter.Match "GET" ("/handlers/" ++ X ++ "/response/headers/" ++ N) = none ∧
      configRouter.Match "POST" ("/handlers/" ++ X ++ "/response/headers/" ++ N) = none ∧
      configRouter.Match "DELETE" ("/handlers/" ++ X ++ "/response/headers/" ++ N) = none := by
  have hreq : ∀ m : String, m ≠ "GET" →
      configRouter.Match m ("/handlers/" ++ X ++ "/request/headers/" ++ N) = none := by
    intro m hm
    have hp : "/handlers/" ++ X ++ "/request/headers/" ++ N =
        "/handlers/" ++ X ++ "/" ++ "request" ++ "/" ++ ("headers/" ++ N) := by
      apply String.ext
      simp [String.data_append]
    rw [hp]
    refine Match_eq_none_of_side m X "request" _ hX.2 (by decide) ?_
    intro r hr hs hv
    have hGET : r.verb = "GET" :=
      (catalogue_side_verb ⟨"GET", "request", [.lit "method"], .readRequestResources⟩
        (by simp [catalogue])).2 r hr hs
    exact hm (hv.trans hGET)
  have hres : ∀ m : String, m ≠ "PUT" →
      configRouter.Match m ("/handlers/" ++ X ++ "/response/headers/" ++ N) = none := by
    intro m hm
    have hp : "/handlers/" ++ X ++ "/response/headers/" ++ N =
        "/handlers/" ++ X ++ "/" ++ "response" ++ "/" ++ ("headers/" ++ N) := by
      apply String.ext
      simp [String.data_append]
    rw [hp]
    refine Match_eq_none_of_side m X "response" _ hX.2 (by decide) ?_
    intro r hr hs hv
    have hPUT : r.verb = "PUT" :=
      (catalogue_side_verb ⟨"PUT", "response", [.lit "status"], .writeResponseResources⟩
        (by simp [catalogue])).2 r hr hs
    exact hm (hv.trans hPUT)
  refine ⟨?_, hreq _ (by decide), hreq _ (by decide), hreq _ (by decide),
    hres _ (by decide), hres _ (by decide), hres _ (by decide)⟩
  intro r hr hm
  obtain ⟨hside, hsame⟩ := catalogue_side_verb r hr
  unfold Route.url
  refine Match_eq_none_of_side method X r.side _ hX.2 hside ?_
  intro r' hr' hs hv
  exact hm (hv.trans (hsame r' hr' hs))

theorem C11_router_non_match_witness :
    isToken "HANDLER_YYYYYYYYYYYYYYYY" ∧
      (∀ r ∈ catalogue, "DELETE" ≠ r.verb →
        configRouter.Match "DELETE" (r.url "HANDLER_YYYYYYYYYYYYYYYY" "name") = none) ∧
      configRouter.Match "POST" "/handlers/HANDLER_YYYYYYYYYYYYYYYY/request/headers/name" = none ∧
      configRouter.Match "PUT" "/handlers/HANDLER_YYYYYYYYYYYYYYYY/request/headers/name" = none ∧
      configRouter.Match "DELETE" "/handlers/HANDLER_YYYYYYYYYYYYYYYY/request/headers/name" = none ∧
      configRouter.Match "GET" "/handlers/HANDLER_YYYYYYYYYYYYYYYY/response/headers/name" = none ∧
      configRouter.Match "POST" "/handlers/HANDLER_YYYYYYYYYYYYYYYY/response/headers/name" = none ∧
      configRouter.Match "DELETE" "/handlers/HANDLER_YYYYYYYYYYYYYYYY/response/headers/name" = none :=
  ⟨by decide, C11_router_non_match "HANDLER_YYYYYYYYYYYYYYYY" "name" "DELETE" (by decide)⟩

/-! ## Accessors -/

theorem getRequestHeader_first (req : Request) (name : String)
    (pre post : List (String × String)) (k v : String)
    (hsplit : req.headers = pre ++ (k, v) :: post)
    (hk : sameHeaderName k name = true)
    (hpre : ∀ kv ∈ pre, sameHeaderName kv.1 name = false) :
    getRequestHeader req name = .ok v := by
  have hnone : pre.find? (fun kv => sameHeaderName kv.1 name) = none := by
    rw [List.find?_eq_none]
    intro kv hkv
    simp [hpre kv hkv]
  simp [getRequestHeader, hsplit, List.find?_append, hnone, List.find?_cons, hk]

theorem getRequestHeader_absent (req : Request) (name : String)
    (habs : ∀ kv ∈ req.headers, sameHeaderName kv.1 name = false) :
    getRequestHeader req name = .error .ResourceNotFound := by
  have hnone : req.headers.find? (fun kv => sameHeaderName kv.1 name) = none := by
    rw [List.find?_eq_none]
    intro kv hkv
    simp [habs kv hkv]
  simp [getRequestHeader, hnone]

theorem foldl_write_written (chunks : List (List UInt8)) :
    ∀ w : Sink, (chunks.foldl Sink.write w).written = w.written ++ chunks.flatten := by
  induction chunks with
  | nil => intro w; simp
  | cons c cs ih => intro w; simp [ih, Sink.write]

theorem foldl_stream_written (chunks : List (List UInt8)) :
    ∀ res : Response,
      (chunks.foldl
          (fun acc chunk =>
            { acc with body := acc.body.write chunk, flushes := acc.flushes + 1 })
          res).body.written = res.body.written ++ chunks.flatten := by
  induction chunks with
  | nil => intro res; simp
  | cons c cs ih =>
    intro res
    rw [List.foldl_cons, ih]
    simp [Sink.write]

/-- C12: the request header accessor.  For every request and header name,
`getRequestHeader(req, name)` returns, with no error, the value of the first
header whose name equals `name` up to letter case when the request carries
one, and the not-found error when it carries none; with the header
`A-Header: With-Value`, reading `A-Header` yields `With-Value` and reading
`Other-Header` yields the error. -/
theorem C12_request_header_accessor (req : Request) (name : String) :
    (∀ pre post k v, req.headers = pre ++ (k, v) :: post →
        sameHeaderName k name = true →
        (∀ kv ∈ pre, sameHeaderName kv.1 name = false) →
        getRequestHeader req name = .ok v) ∧
      ((∃ kv ∈ req.headers, sameHeaderName kv.1 name = true) →
        ∃ v, getRequestHeader req name = .ok v) ∧
      ((∀ kv ∈ req.headers, sameHeaderName kv.1 name = false) →
        getRequestHeader req name = .error .ResourceNotFound) ∧
      getRequestHeader requestWithHeader "A-Header" = .ok "With-Value" ∧
      getRequestHeader requestWithHeader "a-header" = .ok "With-Value" ∧
      getRequestHeader requestWithHeader "Other-Header" = .error .ResourceNotFound := by
  refine ⟨?_, ?_, getRequestHeader_absent req name, rfl, rfl, rfl⟩
  · intro pre post k v hsplit hk hpre
    exact getRequestHeader_first req name pre post k v hsplit hk hpre
  · rintro ⟨kv, hmem, hkv⟩
    unfold getRequestHeader
    cases hfind : req.headers.find? (fun kv => sameHeaderName kv.1 name) with
    | some found => exact ⟨found.2, rfl⟩
    | none =>
      rw [List.find?_eq_none] at hfind
      exact absurd hkv (by simpa using hfind kv hmem)

/-- C13: body copies preserve bytes.  For every byte sequence `b`,
`copyFromRequestBody` on a request whose body is `b` writes exactly `b` to
the destination and returns no error, and `copyToResponseBody` and
`copyToResponseStream` given a source yielding `b` each return no error and
leave a response body that is what it held before followed by `b`, hence
equal to `b` on a response to which nothing had been written. -/
theorem C13_body_copies_preserve_bytes (b : List UInt8) (req : Request) (src : Reader)
    (w : Sink) (res : Response) (hreq : req.body.yields b) (hsrc : src.yields b) :
    ((copyFromRequestBody req w).2 = none ∧
        (copyFromRequestBody req w).1.written = w.written ++ b) ∧
      ((copyToResponseBody res src).2 = none ∧
        (copyToResponseBody res src).1.body.written = res.body.written ++ b) ∧
      ((copyToResponseStream res src).2 = none ∧
        (copyToResponseStream res src).1.body.written = res.body.written ++ b) ∧
      (res.body.written = [] →
        (copyToResponseBody res src).1.body.written = b ∧
        (copyToResponseStream res src).1.body.written = b) := by
  obtain ⟨hrb, hrok⟩ := hreq
  obtain ⟨hsb, hsok⟩ := hsrc
  have h1 : (copyFromRequestBody req w).2 = none ∧
      (copyFromRequestBody req w).1.written = w.written ++ b := by
    simp [copyFromRequestBody, copyChunks, hrok, foldl_write_written, hrb]
  have h2 : (copyToResponseBody res src).2 = none ∧
      (copyToResponseBody res src).1.body.written = res.body.written ++ b := by
    simp [copyToResponseBody, hsok, Sink.write, hsb]
  have h3 : (copyToResponseStream res src).2 = none ∧
      (copyToResponseStream res src).1.body.written = res.body.written ++ b := by
    refine ⟨by simp [copyToResponseStream, hsok], ?_⟩
    simp only [copyToResponseStream]
    rw [foldl_stream_written, hsb]
  refine ⟨h1, h2, h3, fun hempty => ?_⟩
  rw [h2.2, h3.2, hempty]
  exact ⟨rfl, rfl⟩

theorem C13_body_copies_preserve_bytes_witness :
    requestWithBody.body.yields testBody ∧
      testBodyReader.yields testBody ∧
      ((copyFromRequestBody requestWithBody freshRecorder.body).2 = none ∧
        (copyFromRequestBody requestWithBody freshRecorder.body).1.written = freshRecorder.body.written ++ testBody) ∧
      ((copyToResponseBody freshRecorder testBodyReader).2 = none ∧
        (copyToResponseBody freshRecorder testBodyReader).1.body.written =
          freshRecorder.body.written ++ testBody) ∧
      ((copyToResponseStream freshRecorder testBodyReader).2 = none ∧
        (copyToResponseStream freshRecorder testBodyReader).1.body.written =
          freshRecorder.body.written ++ testBody) ∧
      (freshRecorder.body.written = [] →
        (copyToResponseBody freshRecorder testBodyReader).1.body.written = testBody ∧
        (copyToResponseStream freshRecorder testBodyReader).1.body.written = testBody) :=
  ⟨by decide, by decide,
    C13_body_copies_preserve_bytes testBody requestWithBody testBodyReader freshRecorder.body freshRecorder (by decide) (by decide)⟩

/-! ## Frame, key consistency and restoration -/

theorem index_false_not_mem {shm : safeHandlerMap} {id : String}
    (hm : shm.m = RWMutex.free)
    (habsent : ∃ p shm', shm.Get id = .ok ((p, false), shm')) : id ∉ shm.hs.keys := by
  obtain ⟨p, s, hg⟩ := habsent
  rw [safeHandlerMap.Get_of_free _ _ hm] at hg
  have hfalse : (safeHandlerMap.index shm.hs id).2 = false := by
    injection hg with hg
    rw [(Prod.mk.inj hg).1]
  intro hmem
  rw [(safeHandlerMap.index_snd_eq_true shm.hs id).2 hmem] at hfalse
  exact Bool.noConfusion hfalse

theorem erase_of_not_mem_keys (hs : HandlerMap) (id : String) (hnot : id ∉ hs.keys) :
    hs.erase id = hs :=
  AList.ext (List.kerase_of_not_mem_keys hnot)

theorem erase_insert_self (hs : HandlerMap) (id : String) (p : HandlerPtr) :
    (hs.insert id p).erase id = hs.erase id := by
  apply AList.ext
  show List.kerase id (hs.insert id p).entries = List.kerase id hs.entries
  rw [AList.insert_entries]
  exact List.kerase_cons_eq rfl

theorem erase_erase_self (hs : HandlerMap) (id : String) :
    (hs.erase id).erase id = hs.erase id := by
  apply erase_of_not_mem_keys
  rw [← AList.mem_keys, AList.mem_erase]
  exact fun hc => hc.1 rfl

theorem specGet_true {ops : List Op} {id : String} {p : HandlerPtr}
    (hs : specGet ops id = (p, true)) : ∃ h, p = some h ∧ h.ID = id := by
  unfold specGet at hs
  split at hs
  · next h heq =>
    refine ⟨h, ((Prod.mk.inj hs).1).symm, ?_⟩
    simpa [Op.concerns] using lastConcerning_concerns heq
  · exact absurd (Prod.mk.inj hs).2 (by decide)

/-- C15: `Add` and `Remove` touch only their own key.  In every registry
state (lock free), for every non-nil handler `h` and every `id'` other than
`h.ID`, `Get(id')` returns the same result before and after `Add(h)`; and
for every `id` and every `id'` other than `id`, `Get(id')` returns the same
result before and after `Remove(id)`. -/
theorem C15_add_remove_frame (shm : safeHandlerMap) (h : Handler) (id id' : String)
    (hm : shm.m = RWMutex.free) :
    (id' ≠ h.ID →
        ∃ shm' r, shm.Add (some h) = .ok shm' ∧
          shm.Get id' = .ok (r, shm) ∧ shm'.Get id' = .ok (r, shm')) ∧
      (id' ≠ id →
        ∃ shm' r, shm.Remove id = .ok shm' ∧
          shm.Get id' = .ok (r, shm) ∧ shm'.Get id' = .ok (r, shm')) := by
  constructor
  · intro hne
    refine ⟨_, _, shm.Add_some_of_free h hm, shm.Get_of_free id' hm, ?_⟩
    rw [safeHandlerMap.Get_of_free _ _ rfl, safeHandlerMap.index_insert_ne _ _ hne]
  · intro hne
    refine ⟨_, _, shm.Remove_of_free id hm, shm.Get_of_free id' hm, ?_⟩
    rw [safeHandlerMap.Get_of_free _ _ rfl, safeHandlerMap.index_erase_ne _ hne]

theorem C15_add_remove_frame_witness :
    registryAB.m = RWMutex.free ∧
      ("b" ≠ handlerA2.ID →
        ∃ shm' r, registryAB.Add (some handlerA2) = .ok shm' ∧
          registryAB.Get "b" = .ok (r, registryAB) ∧ shm'.Get "b" = .ok (r, shm')) ∧
      ("b" ≠ "a" →
        ∃ shm' r, registryAB.Remove "a" = .ok shm' ∧
          registryAB.Get "b" = .ok (r, registryAB) ∧ shm'.Get "b" = .ok (r, shm')) :=
  ⟨rfl, C15_add_remove_frame registryAB handlerA2 "a" "b" rfl⟩

/-- C17: key consistency.  In every registry state reached from `New()` by
`Add` of non-nil handlers and `Remove`, each stored entry is filed under the
ID of its own handler: whenever `Get(id)` returns `(h, true)`, `h` is not
nil and `h.ID = id`, and every id in `ListIDs()` is the ID of the handler
that `Get` returns for it. -/
theorem C17_key_consistency (ops : List Op) :
    ∃ shm, run ops New = .ok shm ∧
      (∀ e ∈ shm.hs.entries, ∃ h : Handler, e.2 = some h ∧ h.ID = e.1) ∧
      (∀ id p, shm.Get id = .ok ((p, true), shm) → ∃ h : Handler, p = some h ∧ h.ID = id) ∧
      ∀ order, shm.RangeOrder order →
        ∃ ids, shm.ListIDs order = .ok (ids, shm) ∧
          ∀ id ∈ ids, ∃ h : Handler, shm.Get id = .ok ((some h, true), shm) ∧ h.ID = id := by
  obtain ⟨shm, hrun, hm, hidx⟩ := run_New_index ops
  have hkey : ∀ id p, safeHandlerMap.index shm.hs id = (p, true) →
      ∃ h : Handler, p = some h ∧ h.ID = id := by
    intro id p hp
    rw [(hidx id).1] at hp
    exact specGet_true hp
  refine ⟨shm, hrun, ?_, ?_, ?_⟩
  · rintro ⟨id, p⟩ he
    have hl : shm.hs.lookup id = some p := AList.mem_lookup_iff.2 he
    exact hkey id p (by simp [safeHandlerMap.index, hl])
  · intro id p hg
    rw [safeHandlerMap.Get_of_free _ _ hm] at hg
    injection hg with hg
    exact hkey id p (Prod.mk.inj hg).1
  · intro order ho
    refine ⟨_, shm.ListIDs_of_free order hm, ?_⟩
    intro id hid
    rw [(safeHandlerMap.rangeOrder_keys ho).mem_iff,
      ← safeHandlerMap.index_snd_eq_true] at hid
    obtain ⟨h, hp, hID⟩ := hkey id (safeHandlerMap.index shm.hs id).1 (by rw [← hid])
    refine ⟨h, ?_, hID⟩
    rw [safeHandlerMap.Get_of_free _ _ hm, ← hp, ← hid]

/-- C18: `Add` followed by `Remove` restores the registry when the id was
new, and `Remove` is idempotent.  In every registry state (lock free), for a
non-nil handler `h` whose ID is not registered, `Add(h)` then
`Remove(h.ID)` yields the original registry (same `Get` for every id, same
ids in `ListIDs()`); and `Remove(id)` twice yields the same registry as
`Remove(id)` once. -/
theorem C18_add_remove_restores (shm : safeHandlerMap) (h : Handler) (id : String)
    (hm : shm.m = RWMutex.free) :
    ((∃ p shm', shm.Get h.ID = .ok ((p, false), shm')) →
        ∃ s1 s2, shm.Add (some h) = .ok s1 ∧ s1.Remove h.ID = .ok s2 ∧ s2 = shm ∧
          (∀ id', s2.Get id' = shm.Get id') ∧
          (∀ order, s2.ListIDs order = shm.ListIDs order) ∧
          s2.hs.keys = shm.hs.keys) ∧
      ∃ t1 t2, shm.Remove id = .ok t1 ∧ t1.Remove id = .ok t2 ∧ t2 = t1 ∧
        (∀ id', t2.Get id' = t1.Get id') ∧
        (∀ order, t2.ListIDs order = t1.ListIDs order) := by
  constructor
  · intro hnew
    have hnot := index_false_not_mem hm hnew
    have hsame : ({ hs := (shm.hs.insert h.ID (some h)).erase h.ID, m := RWMutex.free } :
        safeHandlerMap) = shm := by
      obtain ⟨hs, m⟩ := shm
      simp only at hm hnot
      rw [erase_insert_self, erase_of_not_mem_keys hs h.ID hnot, hm]
    refine ⟨_, _, shm.Add_some_of_free h hm, safeHandlerMap.Remove_of_free _ _ rfl, hsame,
      ?_, ?_, ?_⟩
    · intro id'; rw [hsame]
    · intro order; rw [hsame]
    · rw [hsame]
  · have hsame : ({ hs := (shm.hs.erase id).erase id, m := RWMutex.free } : safeHandlerMap) =
        { hs := shm.hs.erase id, m := RWMutex.free } := by
      rw [erase_erase_self]
    refine ⟨_, _, shm.Remove_of_free id hm, safeHandlerMap.Remove_of_free _ _ rfl, hsame,
      ?_, ?_⟩
    · intro id'; rw [hsame]
    · intro order; rw [hsame]

theorem C18_add_remove_restores_witness :
    registryAB.m = RWMutex.free ∧
      ((∃ p shm', registryAB.Get ({ ID := "c", request := 7, response := 8 } : Handler).ID =
            .ok ((p, false), shm')) →
        ∃ s1 s2, registryAB.Add (some { ID := "c", request := 7, response := 8 }) = .ok s1 ∧
          s1.Remove ({ ID := "c", request := 7, response := 8 } : Handler).ID = .ok s2 ∧
          s2 = registryAB ∧
          (∀ id', s2.Get id' = registryAB.Get id') ∧
          (∀ order, s2.ListIDs order = registryAB.ListIDs order) ∧
          s2.hs.keys = registryAB.hs.keys) ∧
      ∃ t1 t2, registryAB.Remove "a" = .ok t1 ∧ t1.Remove "a" = .ok t2 ∧ t2 = t1 ∧
        (∀ id', t2.Get id' = t1.Get id') ∧
        (∀ order, t2.ListIDs order = t1.ListIDs order) :=
  ⟨rfl, C18_add_remove_restores registryAB { ID := "c", request := 7, response := 8 } "a" rfl⟩

/-! ## Lock discipline -/

/-- The step-by-step body of each method leaves the state, or fails, as the
method itself does, in every state. -/
theorem trace_eq_run (c : Call) (shm : safeHandlerMap) : (trace c.body shm).2 = c.run shm := by
  obtain ⟨hs, w, r⟩ := shm
  cases c with
  | add h => cases h <;> cases w <;> cases r <;> rfl
  | remove id => cases w <;> cases r <;> rfl
  | get id =>
    cases w <;>
      simp [trace, Call.body, Call.run, Action.perform, safeHandlerMap.Get, RWMutex.RLock,
        RWMutex.RUnlock, bind, Except.bind, Except.map, pure, Except.pure]
  | listIDs order =>
    cases w <;>
      simp [trace, Call.body, Call.run, Action.perform, safeHandlerMap.ListIDs, RWMutex.RLock,
        RWMutex.RUnlock, bind, Except.bind, Except.map, pure, Except.pure]

/-- C16, as the claim states it, fails on one path: `Add` of the nil
pointer, started on `New()` with the lock free, takes the lock, panics on
`h.ID` while holding it and never releases it; no final state is returned. -/
theorem C16_add_nil_keeps_lock :
    trace (Call.body (Call.add none)) New = ([(Action.lock, New)], .error Fault.nilDereference) ∧
      Action.perform Action.lock New = .ok { hs := New.hs, m := { writer := true, readers := 0 } } ∧
      New.Add none = .error Fault.nilDereference ∧
      ¬ ∃ shm', (trace (Call.body (Call.add none)) New).2 = .ok shm' ∧ shm'.m = RWMutex.free := by
  refine ⟨rfl, rfl, rfl, ?_⟩
  rintro ⟨s, hs, -⟩
  have hfault : (trace (Call.body (Call.add none)) New).2 = .error Fault.nilDereference := rfl
  rw [hfault] at hs
  exact Except.noConfusion hs

/-- C16, amended: lock discipline of the calls that return.  For `Add` of a
non-nil handler, `Remove`, `Get` and `ListIDs`, started with the lock free:
every step of the body runs and the call returns with the lock free again;
the calls on the mutex are exactly one `Lock` and one `Unlock` for `Add` and
`Remove`, exactly one `RLock` and one `RUnlock` for `Get` and `ListIDs`; the
one access to the map runs while that lock is held, a write under the
exclusive hold and a read under the shared hold. -/
theorem C16_lock_discipline (shm : safeHandlerMap) (c : Call)
    (hm : shm.m = RWMutex.free) (hc : c ≠ Call.add none) :
    ∃ shm', (trace c.body shm).2 = .ok shm' ∧ c.run shm = .ok shm' ∧
      shm'.m = RWMutex.free ∧
      (trace c.body shm).1.map Prod.fst = c.body ∧
      ((trace c.body shm).1.map Prod.fst).filter Action.onMutex =
        (if c.isWriter then [Action.lock, Action.unlock]
          else [Action.rlock, Action.runlock]) ∧
      (∀ e ∈ (trace c.body shm).1,
        (e.1.writesMap = true → e.2.m = { writer := true, readers := 0 }) ∧
        (e.1.readsMap = true → e.2.m = { writer := false, readers := 1 })) ∧
      ((trace c.body shm).1.filter (fun e => e.1.writesMap || e.1.readsMap)).length = 1 := by
  obtain ⟨hs, m⟩ := shm
  simp only at hm
  subst hm
  have hrun := trace_eq_run c { hs := hs, m := RWMutex.free }
  cases c with
  | add h =>
    cases h with
    | none => exact absurd rfl hc
    | some v =>
      refine ⟨{ hs := hs.insert v.ID (some v), m := RWMutex.free }, rfl, hrun.symm.trans rfl,
        rfl, rfl, rfl, ?_, rfl⟩
      intro e he
      have ht : (trace (Call.add (some v)).body { hs := hs, m := RWMutex.free }).1 =
          [(Action.lock, { hs := hs, m := RWMutex.free }),
            (Action.store (some v), { hs := hs, m := { writer := true, readers := 0 } }),
            (Action.unlock,
              { hs := hs.insert v.ID (some v), m := { writer := true, readers := 0 } })] := rfl
      rw [ht] at he
      simp only [List.mem_cons, List.mem_singleton, List.not_mem_nil, or_false] at he
      rcases he with rfl | rfl | rfl <;> simp [Action.writesMap, Action.readsMap]
  | remove id =>
    refine ⟨{ hs := hs.erase id, m := RWMutex.free }, rfl, hrun.symm.trans rfl,
      rfl, rfl, rfl, ?_, rfl⟩
    intro e he
    have ht : (trace (Call.remove id).body { hs := hs, m := RWMutex.free }).1 =
        [(Action.lock, { hs := hs, m := RWMutex.free }),
          (Action.delete id, { hs := hs, m := { writer := true, readers := 0 } }),
          (Action.unlock, { hs := hs.erase id, m := { writer := true, readers := 0 } })] := rfl
    rw [ht] at he
    simp only [List.mem_cons, List.mem_singleton, List.not_mem_nil, or_false] at he
    rcases he with rfl | rfl | rfl <;> simp [Action.writesMap, Action.readsMap]
  | get id =>
    refine ⟨{ hs := hs, m := RWMutex.free }, rfl, hrun.symm.trans rfl, rfl, rfl, rfl, ?_, rfl⟩
    intro e he
    have ht : (trace (Call.get id).body { hs := hs, m := RWMutex.free }).1 =
        [(Action.rlock, { hs := hs, m := RWMutex.free }),
          (Action.load id, { hs := hs, m := { writer := false, readers := 1 } }),
          (Action.runlock, { hs := hs, m := { writer := false, readers := 1 } })] := rfl
    rw [ht] at he
    simp only [List.mem_cons, List.mem_singleton, List.not_mem_nil, or_false] at he
    rcases he with rfl | rfl | rfl <;> simp [Action.writesMap, Action.readsMap]
  | listIDs order =>
    refine ⟨{ hs := hs, m := RWMutex.free }, rfl, hrun.symm.trans rfl, rfl, rfl, rfl, ?_, rfl⟩
    intro e he
    have ht : (trace (Call.listIDs order).body { hs := hs, m := RWMutex.free }).1 =
        [(Action.rlock, { hs := hs, m := RWMutex.free }),
          (Action.range order, { hs := hs, m := { writer := false, readers := 1 } }),
          (Action.runlock, { hs := hs, m := { writer := false, readers := 1 } })] := rfl
    rw [ht] at he
    simp only [List.mem_cons, List.mem_singleton, List.not_mem_nil, or_false] at he
    rcases he with rfl | rfl | rfl <;> simp [Action.writesMap, Action.readsMap]

theorem C16_lock_discipline_witness :
    registryAB.m = RWMutex.free ∧ Call.add (some handlerA2) ≠ Call.add none ∧
      ∃ shm', (trace (Call.add (some handlerA2)).body registryAB).2 = .ok shm' ∧
        (Call.add (some handlerA2)).run registryAB = .ok shm' ∧
        shm'.m = RWMutex.free ∧
        (trace (Call.add (some handlerA2)).body registryAB).1.map Prod.fst =
          (Call.add (some handlerA2)).body ∧
        ((trace (Call.add (some handlerA2)).body registryAB).1.map Prod.fst).filter
            Action.onMutex =
          (if (Call.add (some handlerA2)).isWriter then [Action.lock, Action.unlock]
            else [Action.rlock, Action.runlock]) ∧
        (∀ e ∈ (trace (Call.add (some handlerA2)).body registryAB).1,
          (e.1.writesMap = true → e.2.m = { writer := true, readers := 0 }) ∧
          (e.1.readsMap = true → e.2.m = { writer := false, readers := 1 })) ∧
        ((trace (Call.add (some handlerA2)).body registryAB).1.filter
          (fun e => e.1.writesMap || e.1.readsMap)).length = 1 :=
  ⟨rfl, by simp, C16_lock_discipline registryAB (Call.add (some handlerA2)) rfl (by simp)⟩

end Kapow
